import Mathlib

/-!
Verification of the live voice-bridge pipeline of the LanguageTranslator
tool (src/components/VoiceMode.tsx and the audio helpers of
src/services/geminiService.ts, here src/unnamed/part_003).

Samples are embedded as rationals: every arithmetic operation the source
performs on them (clamping, multiplication by 32767/32768, truncation,
division by 32768) is exact in IEEE double precision for the magnitudes
involved, so the rational model computes the very same values.
Byte strings and base64 strings are embedded as lists of character codes
(`List Nat`).
-/

/-- Truncation toward zero, the integer conversion JavaScript applies when a
double is stored into an `Int16Array` (step 1 of ToInt16). -/
def qtrunc (q : ℚ) : Int :=
  if q < 0 then ⌈q⌉ else ⌊q⌋

/-- Step 2 of JavaScript's ToInt16: reduce the truncated integer modulo 2^16
and reinterpret as a signed 16-bit value. -/
def wrap16 (i : Int) : Int :=
  if i % 65536 < 32768 then i % 65536 else i % 65536 - 65536

/-- `Math.max(-1, Math.min(1, x))` from `encodeAudioChunk`. -/
def clampSample (x : ℚ) : ℚ :=
  max (-1) (min 1 x)

/-- `int16[i] = s < 0 ? s * 0x8000 : s * 0x7fff` from `encodeAudioChunk`,
including the ToInt16 conversion performed by the `Int16Array` store. -/
def sampleToInt16 (x : ℚ) : Int :=
  let s := clampSample x
  wrap16 (qtrunc (if s < 0 then s * 32768 else s * 32767))

/-- `new Uint8Array(int16.buffer)`: the little-endian byte serialization of a
16-bit signed integer list. Each value is reduced to its unsigned 16-bit
representative and split into low byte, high byte. -/
def int16ToBytes : List Int → List Nat
  | [] => []
  | v :: rest =>
      (v % 65536).toNat % 256 :: (v % 65536).toNat / 256 :: int16ToBytes rest

/-- Index `n < 64` of the standard base64 alphabet `A-Z a-z 0-9 + /`,
returned as a character code (this is the table `btoa` uses). -/
def b64Char (n : Nat) : Nat :=
  if n < 26 then 65 + n
  else if n < 52 then 97 + (n - 26)
  else if n < 62 then 48 + (n - 52)
  else if n = 62 then 43
  else 47

/-- Inverse lookup in the base64 alphabet (the table `atob` uses). -/
def b64Dec (c : Nat) : Nat :=
  if 65 ≤ c ∧ c ≤ 90 then c - 65
  else if 97 ≤ c ∧ c ≤ 122 then c - 97 + 26
  else if 48 ≤ c ∧ c ≤ 57 then c - 48 + 52
  else if c = 43 then 62
  else 63

/-- The browser builtin `btoa`: RFC 4648 base64 over a byte list, producing a
list of character codes, `=` (code 61) used as padding. -/
def btoa : List Nat → List Nat
  | [] => []
  | [a] => [b64Char (a / 4), b64Char (a % 4 * 16), 61, 61]
  | [a, b] => [b64Char (a / 4), b64Char (a % 4 * 16 + b / 16), b64Char (b % 16 * 4), 61]
  | a :: b :: c :: rest =>
      b64Char (a / 4) :: b64Char (a % 4 * 16 + b / 16) ::
      b64Char (b % 16 * 4 + c / 64) :: b64Char (c % 64) :: btoa rest

/-- The browser builtin `atob`: base64 decoding back to the byte list. -/
def atob : List Nat → List Nat
  | c1 :: c2 :: c3 :: c4 :: rest =>
      if c3 = 61 then
        [b64Dec c1 * 4 + b64Dec c2 / 16]
      else if c4 = 61 then
        [b64Dec c1 * 4 + b64Dec c2 / 16, b64Dec c2 % 16 * 16 + b64Dec c3 / 4]
      else
        (b64Dec c1 * 4 + b64Dec c2 / 16) ::
        (b64Dec c2 % 16 * 16 + b64Dec c3 / 4) ::
        (b64Dec c3 % 4 * 64 + b64Dec c4) :: atob rest
  | _ => []

/-- `encodeAudioChunk` (src/unnamed/part_003, lines 196-208): clamp each
sample to [-1, 1], scale negatives by 0x8000 and non-negatives by 0x7fff into
an `Int16Array`, view its buffer as bytes, and base64-encode them. -/
def encodeAudioChunk (data : List ℚ) : List Nat :=
  btoa (int16ToBytes (data.map sampleToInt16))

/-- `decodeBase64Audio` (src/unnamed/part_003, lines 187-194): `atob` the
payload and collect the character codes into a byte array. -/
def decodeBase64Audio (base64 : List Nat) : List Nat :=
  atob base64

/-- `new Int16Array(data.buffer)`: reinterpret consecutive byte pairs as
little-endian signed 16-bit integers. -/
def bytesToInt16 : List Nat → List Int
  | b0 :: b1 :: rest =>
      (if b0 + 256 * b1 < 32768 then ((b0 + 256 * b1 : Nat) : Int)
       else ((b0 + 256 * b1 : Nat) : Int) - 65536) :: bytesToInt16 rest
  | _ => []

/-- A decoded audio buffer: one mono channel of floating-point samples at
24 kHz (the buffer `decodeAudioToBuffer` creates). -/
structure AudioBuffer where
  samples : List ℚ
  deriving Repr, DecidableEq

/-- `buffer.duration` of a 24 kHz mono buffer: sample count over sample rate. -/
def bufferDuration (b : AudioBuffer) : ℚ :=
  (b.samples.length : ℚ) / 24000

/-- `decodeAudioToBuffer` (src/unnamed/part_003, lines 210-221): reinterpret
the bytes as 16-bit signed PCM and divide each sample by 32768.0. -/
def decodeAudioToBuffer (data : List Nat) : AudioBuffer :=
  { samples := (bytesToInt16 data).map (fun (v : Int) => (v : ℚ) / 32768) }

/-!
State model of the `VoiceMode` component (src/components/VoiceMode.tsx).
The React `useState`/`useRef` cells become fields of one record; the
`onaudioprocess`, `onmessage` and `stopLive` callbacks become functions on
it. An `AudioBufferSourceNode` is modelled by its scheduled start time,
buffer duration and two flags; because the JavaScript nodes are heap
objects that outlive their removal from `audioSourcesRef`, the state keeps,
besides the active set, a `stoppedSources` list receiving every node the
code has issued `stop()` on. -/

/-- The `status` state: 'idle' | 'listening' | 'speaking' | 'thinking'. -/
inductive Status where
  | idle
  | listening
  | speaking
  | thinking
  deriving Repr, DecidableEq

/-- The `role` of a transcript line: 'user' | 'model'. -/
inductive Role where
  | user
  | model
  deriving Repr, DecidableEq

/-- `TranscriptLine` from VoiceMode.tsx. -/
structure TranscriptLine where
  text : String
  role : Role
  deriving Repr, DecidableEq

/-- An `AudioBufferSourceNode` that `onmessage` has scheduled:
its start time, its buffer's duration, whether playback has already ended
naturally, and whether `stop()` has been issued on it. -/
structure PlaybackSource where
  startTime : ℚ
  duration : ℚ
  finished : Bool
  stopped : Bool
  deriving Repr, DecidableEq

/-- The session-scoped state of one `VoiceMode` instance. -/
structure VoiceState where
  isLive : Bool
  status : Status
  transcripts : List TranscriptLine
  session : Option Nat
  inputCtxOpen : Bool
  outputCtxOpen : Bool
  nextStartTime : ℚ
  userAcc : String
  modelAcc : String
  activeSources : List PlaybackSource
  stoppedSources : List PlaybackSource
  deriving Repr, DecidableEq

/-- The initial values of the component's state cells. -/
def initialState : VoiceState :=
  { isLive := false
    status := .idle
    transcripts := []
    session := none
    inputCtxOpen := false
    outputCtxOpen := false
    nextStartTime := 0
    userAcc := ""
    modelAcc := ""
    activeSources := []
    stoppedSources := [] }

/-- `source.stop()` on an `AudioBufferSourceNode`: throws (the
PlaybackStopError of the spec's taxonomy) when the node already finished,
otherwise marks it stopped. -/
inductive PlaybackStopError where
  | alreadyFinished
  deriving Repr, DecidableEq

/-- The fallible stop of one node. -/
def stopNode (s : PlaybackSource) : Except PlaybackStopError PlaybackSource :=
  if s.finished then .error .alreadyFinished else .ok { s with stopped := true }

/-- `forEach(s => { try { s.stop(); } catch (e) {} })`: stop every node,
swallowing the error of any that already finished. -/
def stopAllCaught (l : List PlaybackSource) : List PlaybackSource :=
  l.map fun s =>
    match stopNode s with
    | .ok s1 => s1
    | .error _ => s

/-- The same `forEach` without the `try`/`catch`: the first
PlaybackStopError propagates. Used only to state that the catch matters. -/
def stopAllStrict : List PlaybackSource → Except PlaybackStopError (List PlaybackSource)
  | [] => .ok []
  | s :: rest => do
      let s1 ← stopNode s
      let rest1 ← stopAllStrict rest
      .ok (s1 :: rest1)

/-- One inbound transport message, demultiplexed exactly as `onmessage`
reads it: optional input/output transcription deltas, the turn-complete
flag, an optional base64 audio payload (`inlineData.data` as character
codes), and the interruption flag. -/
structure ServerMessage where
  inputTranscription : Option String
  outputTranscription : Option String
  turnComplete : Bool
  audioData : Option (List Nat)
  interrupted : Bool
  deriving Repr, DecidableEq

/-- The `onmessage` callback (VoiceMode.tsx lines 78-134), with `now` the
value of `outputCtx.currentTime` while the message is handled. The four
stages run in source order: transcription accumulation, turn-complete
flush, audio scheduling, interruption. -/
def onmessage (msg : ServerMessage) (now : ℚ) (st : VoiceState) : VoiceState :=
  let st :=
    match msg.inputTranscription with
    | some t => { st with userAcc := st.userAcc ++ t, status := .thinking }
    | none => st
  let st :=
    match msg.outputTranscription with
    | some t => { st with modelAcc := st.modelAcc ++ t, status := .speaking }
    | none => st
  let st :=
    if msg.turnComplete then
      let userText := st.userAcc.trim
      let modelText := st.modelAcc.trim
      let st :=
        if userText ≠ "" ∨ modelText ≠ "" then
          { st with transcripts :=
              st.transcripts
                ++ (if userText ≠ "" then [{ text := userText, role := .user }] else [])
                ++ (if modelText ≠ "" then [{ text := modelText, role := .model }] else []) }
        else st
      { st with userAcc := "", modelAcc := "", status := .listening }
    else st
  let st :=
    match msg.audioData with
    | some data =>
        let buffer := decodeAudioToBuffer (decodeBase64Audio data)
        let startTime := max now st.nextStartTime
        { st with
            nextStartTime := startTime + bufferDuration buffer
            activeSources := st.activeSources ++
              [{ startTime := startTime, duration := bufferDuration buffer,
                 finished := false, stopped := false }] }
    | none => st
  if msg.interrupted then
    { st with
        stoppedSources := st.stoppedSources ++ stopAllCaught st.activeSources
        activeSources := []
        nextStartTime := now
        status := .listening }
  else st

/-- The `onaudioprocess` capture callback (VoiceMode.tsx lines 66-75): when
the session handle is live, encode the frame and emit one realtime-input
message; when it has been cleared, do nothing. The emitted value is the
`media` payload `{ data, mimeType }`. -/
def onaudioprocess (samples : List ℚ) (st : VoiceState) :
    VoiceState × Option (List Nat × String) :=
  if st.session.isSome then
    (st, some (encodeAudioChunk samples, "audio/pcm;rate=16000"))
  else
    (st, none)

/-- `stopLive` (VoiceMode.tsx lines 165-185): stop all audio sources
(errors swallowed), clear the set, close and clear the session handle
(errors swallowed), close both audio contexts, set `isLive` false,
status idle, `nextStartTime` 0. It touches neither the transcript log nor
the accumulation buffers. -/
def stopLive (st : VoiceState) : VoiceState :=
  { st with
      stoppedSources := st.stoppedSources ++ stopAllCaught st.activeSources
      activeSources := []
      session := none
      inputCtxOpen := false
      outputCtxOpen := false
      isLive := false
      status := .idle
      nextStartTime := 0 }

/-- A message carrying only an inline audio payload. -/
def audioMsg (data : List Nat) : ServerMessage :=
  { inputTranscription := none, outputTranscription := none,
    turnComplete := false, audioData := some data, interrupted := false }

/-- A message carrying only the turn-complete marker. -/
def turnMsg : ServerMessage :=
  { inputTranscription := none, outputTranscription := none,
    turnComplete := true, audioData := none, interrupted := false }

/-- A message carrying only the interruption marker. -/
def interruptMsg : ServerMessage :=
  { inputTranscription := none, outputTranscription := none,
    turnComplete := false, audioData := none, interrupted := true }

/-- Feed a sequence of audio payloads through `onmessage`, each paired with
the output clock's value at its arrival. -/
def runAudioSeq (st : VoiceState) : List (List Nat × ℚ) → VoiceState
  | [] => st
  | (data, t) :: rest => runAudioSeq (onmessage (audioMsg data) t st) rest

/-- The scheduling recurrence of the spec's Playback Scheduler: starting
from pending time `nst`, each buffer starts at `max now nst` and pushes the
pending time past its own duration. -/
def schedList (nst : ℚ) : List (List Nat × ℚ) → List PlaybackSource
  | [] => []
  | (data, t) :: rest =>
      let d := bufferDuration (decodeAudioToBuffer (decodeBase64Audio data))
      let s := max t nst
      { startTime := s, duration := d, finished := false, stopped := false }
        :: schedList (s + d) rest

/-- Gapless order: each scheduled source starts no earlier than the end of
the one before it. -/
def chainedOk : List PlaybackSource → Bool
  | a :: b :: rest => decide (a.startTime + a.duration ≤ b.startTime) && chainedOk (b :: rest)
  | _ => true

/-- The per-sample conversion exactly as the spec's words describe it
(section 4.2): "negative values × 32768, non-negative × 32767, clamped to
range" — the scaled value truncated to an integer and clamped to the signed
16-bit range, with no prior clamp of the sample itself. -/
def specSampleToInt16 (x : ℚ) : Int :=
  max (-32768) (min 32767 (qtrunc (if x < 0 then x * 32768 else x * 32767)))

/-!  Helper lemmas. -/

theorem b64Dec_b64Char : ∀ n, n < 64 → b64Dec (b64Char n) = n := by decide

theorem b64Char_ne_61 (n : Nat) : b64Char n ≠ 61 := by
  unfold b64Char
  split_ifs <;> omega

theorem atob_btoa (bs : List Nat) : (∀ b ∈ bs, b < 256) → atob (btoa bs) = bs := by
  induction bs using btoa.induct with
  | case1 =>
      intro _
      simp [btoa, atob]
  | case2 a =>
      intro h
      have ha : a < 256 := h a (by simp)
      have h1 : b64Dec (b64Char (a / 4)) = a / 4 := b64Dec_b64Char _ (by omega)
      have h2 : b64Dec (b64Char (a % 4 * 16)) = a % 4 * 16 := b64Dec_b64Char _ (by omega)
      simp [btoa, atob, h1, h2]
      omega
  | case3 a b =>
      intro h
      have ha : a < 256 := h a (by simp)
      have hb : b < 256 := h b (by simp)
      have h1 : b64Dec (b64Char (a / 4)) = a / 4 := b64Dec_b64Char _ (by omega)
      have h2 : b64Dec (b64Char (a % 4 * 16 + b / 16)) = a % 4 * 16 + b / 16 :=
        b64Dec_b64Char _ (by omega)
      have h3 : b64Dec (b64Char (b % 16 * 4)) = b % 16 * 4 := b64Dec_b64Char _ (by omega)
      simp [btoa, atob, b64Char_ne_61, h1, h2, h3]
      omega
  | case4 a b c rest ih =>
      intro h
      have ha : a < 256 := h a (by simp)
      have hb : b < 256 := h b (by simp)
      have hc : c < 256 := h c (by simp)
      have h1 : b64Dec (b64Char (a / 4)) = a / 4 := b64Dec_b64Char _ (by omega)
      have h2 : b64Dec (b64Char (a % 4 * 16 + b / 16)) = a % 4 * 16 + b / 16 :=
        b64Dec_b64Char _ (by omega)
      have h3 : b64Dec (b64Char (b % 16 * 4 + c / 64)) = b % 16 * 4 + c / 64 :=
        b64Dec_b64Char _ (by omega)
      have h4 : b64Dec (b64Char (c % 64)) = c % 64 := b64Dec_b64Char _ (by omega)
      have hrest : ∀ x ∈ rest, x < 256 := fun x hx => h x (by simp [hx])
      simp [btoa, atob, b64Char_ne_61, h1, h2, h3, h4, ih hrest]
      omega

theorem wrap16_bounds (i : Int) : -32768 ≤ wrap16 i ∧ wrap16 i < 32768 := by
  unfold wrap16
  split_ifs <;> omega

theorem wrap16_eq_self (i : Int) (h1 : -32768 ≤ i) (h2 : i < 32768) : wrap16 i = i := by
  unfold wrap16
  split_ifs <;> omega

theorem sampleToInt16_bounds (x : ℚ) :
    -32768 ≤ sampleToInt16 x ∧ sampleToInt16 x < 32768 := by
  unfold sampleToInt16
  exact wrap16_bounds _

theorem int16ToBytes_lt (l : List Int) : ∀ b ∈ int16ToBytes l, b < 256 := by
  induction l with
  | nil => simp [int16ToBytes]
  | cons v rest ih =>
      intro b hb
      simp only [int16ToBytes, List.mem_cons] at hb
      rcases hb with rfl | rfl | hb
      · omega
      · have h0 : (0 : Int) ≤ v % 65536 := Int.emod_nonneg v (by norm_num)
        have h1 : v % 65536 < 65536 := Int.emod_lt_of_pos v (by norm_num)
        omega
      · exact ih b hb

theorem bytesToInt16_int16ToBytes (l : List Int) :
    (∀ v ∈ l, -32768 ≤ v ∧ v < 32768) → bytesToInt16 (int16ToBytes l) = l := by
  induction l with
  | nil =>
      intro _
      simp [int16ToBytes, bytesToInt16]
  | cons v rest ih =>
      intro h
      have hv := h v (by simp)
      have hrest : ∀ w ∈ rest, -32768 ≤ w ∧ w < 32768 := fun w hw => h w (by simp [hw])
      simp only [int16ToBytes, bytesToInt16, List.cons.injEq]
      refine ⟨?_, ih hrest⟩
      have h0 : (0 : Int) ≤ v % 65536 := Int.emod_nonneg v (by norm_num)
      have h1 : v % 65536 < 65536 := Int.emod_lt_of_pos v (by norm_num)
      have h2 : v % 65536 = v ∨ v % 65536 = v + 65536 := by omega
      split_ifs <;> omega

theorem clampSample_mem (x : ℚ) : -1 ≤ clampSample x ∧ clampSample x ≤ 1 := by
  unfold clampSample
  refine ⟨le_max_left _ _, max_le (by norm_num) (min_le_left _ _)⟩

theorem clampSample_eq_self (x : ℚ) (h1 : -1 ≤ x) (h2 : x ≤ 1) : clampSample x = x := by
  unfold clampSample
  rw [min_eq_right h2, max_eq_right h1]

theorem clampSample_idem (x : ℚ) : clampSample (clampSample x) = clampSample x :=
  clampSample_eq_self _ (clampSample_mem x).1 (clampSample_mem x).2

theorem qtrunc_scaled_bounds (s : ℚ) (h1 : -1 ≤ s) (h2 : s ≤ 1) :
    -32768 ≤ qtrunc (if s < 0 then s * 32768 else s * 32767) ∧
      qtrunc (if s < 0 then s * 32768 else s * 32767) < 32768 := by
  unfold qtrunc
  by_cases hs : s < 0
  · rw [if_pos hs, if_pos (by nlinarith)]
    constructor
    · have hle : ((-32768 : Int) : ℚ) ≤ s * 32768 := by push_cast; nlinarith
      have := Int.ceil_mono hle
      simpa using this
    · have hle : s * 32768 ≤ ((0 : Int) : ℚ) := by push_cast; nlinarith
      have := Int.ceil_mono hle
      simp at this
      omega
  · rw [if_neg hs, if_neg (by push_neg at hs; nlinarith)]
    push_neg at hs
    constructor
    · have : (0 : Int) ≤ ⌊s * 32767⌋ := Int.le_floor.mpr (by push_cast; nlinarith)
      omega
    · have hle : s * 32767 ≤ ((32767 : Int) : ℚ) := by push_cast; nlinarith
      have := Int.floor_mono hle
      simp at this
      omega

theorem sampleToInt16_in_range (x : ℚ) (h1 : -1 ≤ x) (h2 : x ≤ 1) :
    sampleToInt16 x = qtrunc (if x < 0 then x * 32768 else x * 32767) := by
  unfold sampleToInt16
  rw [clampSample_eq_self x h1 h2]
  exact wrap16_eq_self _ (qtrunc_scaled_bounds x h1 h2).1 (qtrunc_scaled_bounds x h1 h2).2

theorem sample_roundtrip_close (x : ℚ) (h1 : -1 ≤ x) (h2 : x ≤ 1) :
    |x - (sampleToInt16 x : ℚ) / 32768| < 2 / 32768 := by
  rw [sampleToInt16_in_range x h1 h2]
  unfold qtrunc
  by_cases hx : x < 0
  · rw [if_pos hx, if_pos (by nlinarith)]
    have hle : x * 32768 ≤ ((⌈x * 32768⌉ : Int) : ℚ) := Int.le_ceil _
    have hlt : (((⌈x * 32768⌉ : Int)) : ℚ) < x * 32768 + 1 := Int.ceil_lt_add_one _
    rw [abs_lt]
    constructor <;> linarith
  · rw [if_neg hx, if_neg (by push_neg at hx; nlinarith)]
    push_neg at hx
    have hle : ((⌊x * 32767⌋ : Int) : ℚ) ≤ x * 32767 := Int.floor_le _
    have hlt : x * 32767 < ((⌊x * 32767⌋ : Int) : ℚ) + 1 := Int.lt_floor_add_one _
    rw [abs_lt]
    constructor <;> linarith

theorem decode_encode_samples (x : List ℚ) :
    (decodeAudioToBuffer (decodeBase64Audio (encodeAudioChunk x))).samples
      = x.map fun a => ((sampleToInt16 a : Int) : ℚ) / 32768 := by
  unfold encodeAudioChunk decodeBase64Audio decodeAudioToBuffer
  rw [atob_btoa _ (int16ToBytes_lt _)]
  rw [bytesToInt16_int16ToBytes _ ?_]
  · simp [List.map_map]
  · intro v hv
    rw [List.mem_map] at hv
    obtain ⟨a, _, rfl⟩ := hv
    exact sampleToInt16_bounds a

theorem stopAllCaught_mem (l : List PlaybackSource) (s : PlaybackSource)
    (hs : s ∈ l) (hf : s.finished = false) :
    { s with stopped := true } ∈ stopAllCaught l := by
  unfold stopAllCaught
  refine List.mem_map.mpr ⟨s, hs, ?_⟩
  simp [stopNode, hf]

theorem stopAllCaught_mem_finished (l : List PlaybackSource) (s : PlaybackSource)
    (hs : s ∈ l) (hf : s.finished = true) : s ∈ stopAllCaught l := by
  unfold stopAllCaught
  refine List.mem_map.mpr ⟨s, hs, ?_⟩
  simp [stopNode, hf]

theorem onmessage_audioMsg (data : List Nat) (now : ℚ) (st : VoiceState) :
    onmessage (audioMsg data) now st =
      { st with
          nextStartTime := max now st.nextStartTime +
            bufferDuration (decodeAudioToBuffer (decodeBase64Audio data))
          activeSources := st.activeSources ++
            [{ startTime := max now st.nextStartTime,
               duration := bufferDuration (decodeAudioToBuffer (decodeBase64Audio data)),
               finished := false, stopped := false }] } := by
  simp [onmessage, audioMsg]

theorem runAudioSeq_activeSources (msgs : List (List Nat × ℚ)) :
    ∀ st : VoiceState,
      (runAudioSeq st msgs).activeSources
        = st.activeSources ++ schedList st.nextStartTime msgs := by
  induction msgs with
  | nil =>
      intro st
      simp [runAudioSeq, schedList]
  | cons p rest ih =>
      intro st
      obtain ⟨data, t⟩ := p
      rw [runAudioSeq, onmessage_audioMsg, ih]
      simp [schedList]

theorem chainedOk_cons (a : PlaybackSource) (l : List PlaybackSource)
    (h1 : ∀ b, l.head? = some b → a.startTime + a.duration ≤ b.startTime)
    (h2 : chainedOk l = true) : chainedOk (a :: l) = true := by
  cases l with
  | nil => rfl
  | cons b rest =>
      simp only [chainedOk, Bool.and_eq_true, decide_eq_true_eq]
      exact ⟨h1 b rfl, h2⟩

theorem schedList_head_ge (nst : ℚ) (msgs : List (List Nat × ℚ)) :
    ∀ b, (schedList nst msgs).head? = some b → nst ≤ b.startTime := by
  cases msgs with
  | nil => simp [schedList]
  | cons p rest =>
      obtain ⟨data, t⟩ := p
      intro b hb
      simp [schedList] at hb
      rw [← hb]
      exact le_max_right _ _

theorem chainedOk_schedList (msgs : List (List Nat × ℚ)) :
    ∀ nst : ℚ, chainedOk (schedList nst msgs) = true := by
  induction msgs with
  | nil => intro nst; rfl
  | cons p rest ih =>
      intro nst
      obtain ⟨data, t⟩ := p
      rw [schedList]
      apply chainedOk_cons
      · intro b hb
        have := schedList_head_ge (max t nst +
          bufferDuration (decodeAudioToBuffer (decodeBase64Audio data))) rest b hb
        simpa using this
      · exact ih _

theorem onmessage_interrupted_stopped (msg : ServerMessage) (now : ℚ) (st : VoiceState)
    (h : msg.interrupted = true) :
    ∀ s ∈ st.activeSources, s.finished = false →
      { s with stopped := true } ∈ (onmessage msg now st).stoppedSources := by
  obtain ⟨it, ot, tc, ad, ir⟩ := msg
  cases ir
  · simp at h
  · intro s hs hf
    cases it <;> cases ot <;> cases tc <;> cases ad <;>
      simp [onmessage, apply_ite VoiceState.stoppedSources,
        apply_ite VoiceState.activeSources, apply_ite VoiceState.nextStartTime,
        ite_self] <;>
      first
        | exact stopAllCaught_mem _ s hs hf
        | exact stopAllCaught_mem _ s (List.mem_append_left _ hs) hf
        | exact Or.inr (stopAllCaught_mem _ s hs hf)
        | exact Or.inr (stopAllCaught_mem _ s (List.mem_append_left _ hs) hf)

theorem stopLive_stopped (st : VoiceState) :
    ∀ s ∈ st.activeSources, s.finished = false →
      { s with stopped := true } ∈ (stopLive st).stoppedSources := by
  intro s hs hf
  exact List.mem_append_right _ (stopAllCaught_mem _ s hs hf)

theorem schedList_ge_clock (msgs : List (List Nat × ℚ)) :
    ∀ nst : ℚ, List.Forall₂ (fun (s : PlaybackSource) (m : List Nat × ℚ) => m.2 ≤ s.startTime)
      (schedList nst msgs) msgs := by
  induction msgs with
  | nil => intro nst; exact List.Forall₂.nil
  | cons p rest ih =>
      intro nst
      obtain ⟨data, t⟩ := p
      rw [schedList]
      exact List.Forall₂.cons (le_max_left _ _) (ih _)

/-!  Claim theorems. -/

/-- C1: starting from a session state with no pending sources, a sequence of
decoded audio buffers handled by `onmessage` at arbitrary clock times is
scheduled exactly by the recurrence `startTime = max(currentClockTime,
nextStartTime)`, `nextStartTime := startTime + duration` (the `schedList`
equation); consequently consecutive start times are separated by at least the
earlier buffer's duration (no overlap) and every start time is at least the
clock value at its scheduling (never in the past). -/
theorem scheduling_no_overlap_no_past (st : VoiceState) (msgs : List (List Nat × ℚ))
    (h : st.activeSources = []) :
    (runAudioSeq st msgs).activeSources = schedList st.nextStartTime msgs ∧
    chainedOk (runAudioSeq st msgs).activeSources = true ∧
    List.Forall₂ (fun (s : PlaybackSource) (m : List Nat × ℚ) => m.2 ≤ s.startTime)
      (runAudioSeq st msgs).activeSources msgs := by
  have he := runAudioSeq_activeSources msgs st
  rw [h, List.nil_append] at he
  refine ⟨he, ?_, ?_⟩
  · rw [he]
    exact chainedOk_schedList msgs st.nextStartTime
  · rw [he]
    exact schedList_ge_clock msgs st.nextStartTime

/-- Witness for C1: the spec's concrete scenario shape — two buffers arriving
while the clock sits at 0 are scheduled back-to-back from the initial state
(each payload decodes to a 4-byte, two-sample buffer). -/
theorem scheduling_no_overlap_no_past_witness :
    initialState.activeSources = [] ∧
    ((runAudioSeq initialState [([65, 65, 65, 65, 65, 65, 61, 61], 0),
        ([65, 65, 65, 65, 65, 65, 61, 61], 0)]).activeSources
      = schedList initialState.nextStartTime [([65, 65, 65, 65, 65, 65, 61, 61], 0),
          ([65, 65, 65, 65, 65, 65, 61, 61], 0)] ∧
     chainedOk (runAudioSeq initialState [([65, 65, 65, 65, 65, 65, 61, 61], 0),
        ([65, 65, 65, 65, 65, 65, 61, 61], 0)]).activeSources = true ∧
     List.Forall₂ (fun (s : PlaybackSource) (m : List Nat × ℚ) => m.2 ≤ s.startTime)
       (runAudioSeq initialState [([65, 65, 65, 65, 65, 65, 61, 61], 0),
          ([65, 65, 65, 65, 65, 65, 61, 61], 0)]).activeSources
       [([65, 65, 65, 65, 65, 65, 61, 61], 0), ([65, 65, 65, 65, 65, 65, 61, 61], 0)]) :=
  ⟨rfl, scheduling_no_overlap_no_past initialState _ rfl⟩

/-- C2: any message carrying the interruption marker leaves the active-source
set empty, resets `nextStartTime` to the current output-clock value, sets the
status to listening, stops every not-yet-finished buffer of the previous
active set, and any audio buffer processed afterwards is scheduled to start
no earlier than that clock value. -/
theorem interruption_clears_and_resets (st : VoiceState) (msg : ServerMessage) (now : ℚ)
    (h : msg.interrupted = true) :
    (onmessage msg now st).activeSources = [] ∧
    (onmessage msg now st).nextStartTime = now ∧
    (onmessage msg now st).status = .listening ∧
    (∀ s ∈ st.activeSources, s.finished = false →
      { s with stopped := true } ∈ (onmessage msg now st).stoppedSources) ∧
    (∀ (data : List Nat) (t2 : ℚ),
      ∀ s ∈ (onmessage (audioMsg data) t2 (onmessage msg now st)).activeSources,
        now ≤ s.startTime) := by
  obtain ⟨it, ot, tc, ad, ir⟩ := msg
  cases ir
  · simp at h
  · refine ⟨?_, ?_, ?_, onmessage_interrupted_stopped _ now st rfl, ?_⟩
    · simp [onmessage]
    · simp [onmessage]
    · simp [onmessage]
    · intro data t2 s hsmem
      rw [onmessage_audioMsg] at hsmem
      have hempty : (onmessage ⟨it, ot, tc, ad, true⟩ now st).activeSources = [] := by
        simp [onmessage]
      have hnst : (onmessage ⟨it, ot, tc, ad, true⟩ now st).nextStartTime = now := by
        simp [onmessage]
      simp only [hempty, hnst, List.nil_append, List.mem_singleton] at hsmem
      subst hsmem
      exact le_trans (le_max_right _ _) (le_refl _)

/-- Witness for C2: an interruption at clock 5 on a state with one pending
unfinished source. -/
theorem interruption_clears_and_resets_witness :
    interruptMsg.interrupted = true ∧
    ((onmessage interruptMsg 5 { initialState with
        activeSources := [{ startTime := 0, duration := 1, finished := false, stopped := false }],
        nextStartTime := 1, status := .speaking }).activeSources = [] ∧
     (onmessage interruptMsg 5 { initialState with
        activeSources := [{ startTime := 0, duration := 1, finished := false, stopped := false }],
        nextStartTime := 1, status := .speaking }).nextStartTime = 5 ∧
     (onmessage interruptMsg 5 { initialState with
        activeSources := [{ startTime := 0, duration := 1, finished := false, stopped := false }],
        nextStartTime := 1, status := .speaking }).status = .listening ∧
     (∀ s ∈ ({ initialState with
        activeSources := [{ startTime := 0, duration := 1, finished := false, stopped := false }],
        nextStartTime := 1, status := .speaking } : VoiceState).activeSources,
        s.finished = false →
        { s with stopped := true } ∈ (onmessage interruptMsg 5 { initialState with
          activeSources := [{ startTime := 0, duration := 1, finished := false, stopped := false }],
          nextStartTime := 1, status := .speaking }).stoppedSources) ∧
     (∀ (data : List Nat) (t2 : ℚ),
       ∀ s ∈ (onmessage (audioMsg data) t2 (onmessage interruptMsg 5 { initialState with
          activeSources := [{ startTime := 0, duration := 1, finished := false, stopped := false }],
          nextStartTime := 1, status := .speaking })).activeSources,
         (5 : ℚ) ≤ s.startTime)) :=
  ⟨rfl, interruption_clears_and_resets _ interruptMsg 5 rfl⟩

/-- C3 counterexample: the claimed bound |x − decoded| ≤ 1/32768 fails for the
in-range sample 58983/65536 — the encoder scales non-negative samples by
32767 while the decoder divides by 32768, so the round-trip error reaches
3/65536 here. -/
theorem roundtrip_error_exceeds_one_quantum :
    (-1 ≤ (58983 : ℚ) / 65536 ∧ (58983 : ℚ) / 65536 ≤ 1) ∧
    (decodeAudioToBuffer (decodeBase64Audio (encodeAudioChunk [(58983 : ℚ) / 65536]))).samples
      = [(29490 : ℚ) / 32768] ∧
    ¬ |(58983 : ℚ) / 65536 - (29490 : ℚ) / 32768| ≤ 1 / 32768 := by
  have hs : sampleToInt16 ((58983 : ℚ) / 65536) = 29490 := by
    have hcl : clampSample ((58983 : ℚ) / 65536) = (58983 : ℚ) / 65536 :=
      clampSample_eq_self _ (by norm_num) (by norm_num)
    simp only [sampleToInt16, hcl]
    rw [if_neg (by norm_num)]
    have hfl : qtrunc ((58983 : ℚ) / 65536 * 32767) = 29490 := by
      unfold qtrunc
      rw [if_neg (by norm_num)]
      rw [Int.floor_eq_iff]
      constructor <;> norm_num
    rw [hfl]
    unfold wrap16
    norm_num
  refine ⟨⟨by norm_num, by norm_num⟩, ?_, ?_⟩
  · rw [decode_encode_samples [(58983 : ℚ) / 65536]]
    simp [hs]
  · rw [abs_of_pos (by norm_num)]
    norm_num

/-- C3 (amended): for any sample sequence with every sample in [-1, 1], the
full decode∘encode round-trip (base64 and 16-bit PCM included) preserves the
length and reproduces each sample within strictly less than 2/32768 — twice
the claimed quantum, the bound actually forced by the 32767-up/32768-down
scaling asymmetry. -/
theorem roundtrip_within_two_quanta (x : List ℚ) (h : ∀ a ∈ x, -1 ≤ a ∧ a ≤ 1) :
    (decodeAudioToBuffer (decodeBase64Audio (encodeAudioChunk x))).samples.length
      = x.length ∧
    ∀ (i : Nat) (hx : i < x.length)
      (hd : i < (decodeAudioToBuffer (decodeBase64Audio (encodeAudioChunk x))).samples.length),
      |x.get ⟨i, hx⟩ -
        (decodeAudioToBuffer (decodeBase64Audio (encodeAudioChunk x))).samples.get ⟨i, hd⟩|
        < 2 / 32768 := by
  have he := decode_encode_samples x
  constructor
  · rw [he, List.length_map]
  · intro i hx hd
    have hg : (decodeAudioToBuffer (decodeBase64Audio (encodeAudioChunk x))).samples.get ⟨i, hd⟩
        = ((sampleToInt16 (x.get ⟨i, hx⟩) : Int) : ℚ) / 32768 := by
      simp only [List.get_eq_getElem]
      rw [List.getElem_of_eq he hd]
      simp [List.getElem_map]
    rw [hg]
    exact sample_roundtrip_close _ (h _ (List.get_mem x i hx)).1 (h _ (List.get_mem x i hx)).2

/-- Witness for C3 (amended): the single-sample sequence [1/2]. -/
theorem roundtrip_within_two_quanta_witness :
    (∀ a ∈ [(1 : ℚ) / 2], -1 ≤ a ∧ a ≤ 1) ∧
    ((decodeAudioToBuffer (decodeBase64Audio (encodeAudioChunk [(1 : ℚ) / 2]))).samples.length
      = [(1 : ℚ) / 2].length ∧
     ∀ (i : Nat) (hx : i < [(1 : ℚ) / 2].length)
       (hd : i <
         (decodeAudioToBuffer (decodeBase64Audio (encodeAudioChunk [(1 : ℚ) / 2]))).samples.length),
       |[(1 : ℚ) / 2].get ⟨i, hx⟩ -
         (decodeAudioToBuffer
           (decodeBase64Audio (encodeAudioChunk [(1 : ℚ) / 2]))).samples.get ⟨i, hd⟩|
         < 2 / 32768) :=
  ⟨by norm_num, roundtrip_within_two_quanta [(1 : ℚ) / 2] (by norm_num)⟩

/-- C4: processing a bare turn-complete marker appends to the transcript log
exactly the non-empty trimmed accumulations, user entry before model entry
(nothing when both trim to empty, one entry when exactly one is non-empty),
and afterwards both accumulation buffers are empty and the status is
listening. -/
theorem turn_complete_flush (st : VoiceState) (now : ℚ) :
    (onmessage turnMsg now st).transcripts
      = st.transcripts
        ++ (if st.userAcc.trim = "" then [] else [{ text := st.userAcc.trim, role := .user }])
        ++ (if st.modelAcc.trim = "" then []
            else [{ text := st.modelAcc.trim, role := .model }]) ∧
    (onmessage turnMsg now st).userAcc = "" ∧
    (onmessage turnMsg now st).modelAcc = "" ∧
    (onmessage turnMsg now st).status = .listening := by
  by_cases hu : st.userAcc.trim = "" <;> by_cases hm : st.modelAcc.trim = "" <;>
    simp [onmessage, turnMsg, hu, hm]

/-- C5 counterexample: stop() does not clear the transcript log or the
accumulation buffers — on a state holding one logged turn and pending
accumulation text, the claimed post-state (buffers stopped, set empty,
handle cleared, status idle, nextStartTime 0, accumulation cleared AND log
cleared) is false. -/
theorem stop_clears_log_counterexample :
    ¬ ((stopLive { initialState with
          isLive := true, status := .speaking, session := some 1,
          transcripts := [{ text := "Hola", role := .model }],
          userAcc := "hi", modelAcc := "ho", nextStartTime := 5 }).activeSources = [] ∧
       (stopLive { initialState with
          isLive := true, status := .speaking, session := some 1,
          transcripts := [{ text := "Hola", role := .model }],
          userAcc := "hi", modelAcc := "ho", nextStartTime := 5 }).session = none ∧
       (stopLive { initialState with
          isLive := true, status := .speaking, session := some 1,
          transcripts := [{ text := "Hola", role := .model }],
          userAcc := "hi", modelAcc := "ho", nextStartTime := 5 }).status = .idle ∧
       (stopLive { initialState with
          isLive := true, status := .speaking, session := some 1,
          transcripts := [{ text := "Hola", role := .model }],
          userAcc := "hi", modelAcc := "ho", nextStartTime := 5 }).nextStartTime = 0 ∧
       (stopLive { initialState with
          isLive := true, status := .speaking, session := some 1,
          transcripts := [{ text := "Hola", role := .model }],
          userAcc := "hi", modelAcc := "ho", nextStartTime := 5 }).userAcc = "" ∧
       (stopLive { initialState with
          isLive := true, status := .speaking, session := some 1,
          transcripts := [{ text := "Hola", role := .model }],
          userAcc := "hi", modelAcc := "ho", nextStartTime := 5 }).modelAcc = "" ∧
       (stopLive { initialState with
          isLive := true, status := .speaking, session := some 1,
          transcripts := [{ text := "Hola", role := .model }],
          userAcc := "hi", modelAcc := "ho", nextStartTime := 5 }).transcripts = []) := by
  intro hcon
  have := hcon.2.2.2.2.2.2
  simp [stopLive, initialState] at this

/-- C5 (amended): after stop(), every not-yet-finished tracked buffer has
been stopped, the active-source set is empty, the transport handle is
cleared, the status is idle and nextStartTime is 0 — but the transcript
accumulation buffers and the transcript log are left unchanged, not
cleared. -/
theorem stop_resets_session_state (st : VoiceState) :
    (stopLive st).activeSources = [] ∧
    (∀ s ∈ st.activeSources, s.finished = false →
      { s with stopped := true } ∈ (stopLive st).stoppedSources) ∧
    (stopLive st).session = none ∧
    (stopLive st).status = .idle ∧
    (stopLive st).isLive = false ∧
    (stopLive st).nextStartTime = 0 ∧
    (stopLive st).transcripts = st.transcripts ∧
    (stopLive st).userAcc = st.userAcc ∧
    (stopLive st).modelAcc = st.modelAcc :=
  ⟨rfl, stopLive_stopped st, rfl, rfl, rfl, rfl, rfl, rfl, rfl⟩

/-- Witness for C5 (amended): a live state with one unfinished source and
pending transcript text. -/
theorem stop_resets_session_state_witness :
    (stopLive { initialState with
        isLive := true, status := .speaking, session := some 1,
        transcripts := [{ text := "Hola", role := .model }],
        userAcc := "hi", modelAcc := "ho", nextStartTime := 5,
        activeSources :=
          [{ startTime := 0, duration := 1, finished := false, stopped := false }] }).activeSources
      = [] ∧
    (∀ s ∈ ({ initialState with
        isLive := true, status := .speaking, session := some 1,
        transcripts := [{ text := "Hola", role := .model }],
        userAcc := "hi", modelAcc := "ho", nextStartTime := 5,
        activeSources :=
          [{ startTime := 0, duration := 1, finished := false,
             stopped := false }] } : VoiceState).activeSources,
      s.finished = false →
      { s with stopped := true } ∈ (stopLive { initialState with
          isLive := true, status := .speaking, session := some 1,
          transcripts := [{ text := "Hola", role := .model }],
          userAcc := "hi", modelAcc := "ho", nextStartTime := 5,
          activeSources :=
            [{ startTime := 0, duration := 1, finished := false,
               stopped := false }] }).stoppedSources) ∧
    (stopLive { initialState with
        isLive := true, status := .speaking, session := some 1,
        transcripts := [{ text := "Hola", role := .model }],
        userAcc := "hi", modelAcc := "ho", nextStartTime := 5,
        activeSources :=
          [{ startTime := 0, duration := 1, finished := false, stopped := false }] }).session
      = none :=
  ⟨(stop_resets_session_state _).1, (stop_resets_session_state _).2.1,
    (stop_resets_session_state _).2.2.1⟩

/-- C6: once the session handle is cleared — as stop() leaves it — the
audio-capture callback is a no-op: the state is unchanged and no
realtime-input message (hence no encoding output) is emitted; in
particular this holds for every state produced by stopLive. -/
theorem no_send_after_session_cleared (st : VoiceState) (samples : List ℚ)
    (h : st.session = none) :
    onaudioprocess samples st = (st, none) ∧
    ∀ st2 : VoiceState, onaudioprocess samples (stopLive st2) = (stopLive st2, none) := by
  constructor
  · simp [onaudioprocess, h]
  · intro st2
    simp [onaudioprocess, stopLive]

/-- Witness for C6: the capture callback on the initial (never-started)
state and on any stopped state emits nothing. -/
theorem no_send_after_session_cleared_witness :
    initialState.session = none ∧
    (onaudioprocess [0] initialState = (initialState, none) ∧
     ∀ st2 : VoiceState, onaudioprocess [0] (stopLive st2) = (stopLive st2, none)) :=
  ⟨rfl, no_send_after_session_cleared initialState [0] rfl⟩

/-- C7: stop() on a never-started session leaves the state exactly at its
initial value (status idle, no error — the model is total and every
fallible browser call is wrapped in try/catch in the source), and stop() is
idempotent: a second consecutive stop() changes nothing and status is idle
after every call. -/
theorem stop_idempotent_and_safe :
    stopLive initialState = initialState ∧
    (stopLive initialState).status = .idle ∧
    ∀ st : VoiceState, stopLive (stopLive st) = stopLive st ∧ (stopLive st).status = .idle := by
  refine ⟨rfl, rfl, fun st => ⟨?_, rfl⟩⟩
  simp [stopLive, stopAllCaught]

/-- C8: on samples already in [-1, 1], the encoder is exactly the spec's
description — each sample mapped to a 16-bit signed integer (negative ×
32768, non-negative × 32767, truncated and clamped to the 16-bit range),
then the little-endian bytes base64-encoded; being a pure function of its
input, it reads and writes no state. -/
theorem encoder_matches_spec_description (x : List ℚ) (h : ∀ a ∈ x, -1 ≤ a ∧ a ≤ 1) :
    encodeAudioChunk x = btoa (int16ToBytes (x.map specSampleToInt16)) := by
  unfold encodeAudioChunk
  congr 2
  apply List.map_congr_left
  intro a ha
  rw [sampleToInt16_in_range a (h a ha).1 (h a ha).2]
  unfold specSampleToInt16
  have hb := qtrunc_scaled_bounds a (h a ha).1 (h a ha).2
  rw [min_eq_right (by omega), max_eq_right (by omega)]

/-- Witness for C8: a two-sample frame. -/
theorem encoder_matches_spec_description_witness :
    (∀ a ∈ [(1 : ℚ) / 2, -(1 : ℚ) / 2], -1 ≤ a ∧ a ≤ 1) ∧
    encodeAudioChunk [(1 : ℚ) / 2, -(1 : ℚ) / 2]
      = btoa (int16ToBytes ([(1 : ℚ) / 2, -(1 : ℚ) / 2].map specSampleToInt16)) :=
  ⟨by norm_num, encoder_matches_spec_description [(1 : ℚ) / 2, -(1 : ℚ) / 2] (by norm_num)⟩

/-- C9: stopping the buffers of a set never propagates an error: a finished
buffer's stop raises PlaybackStopError, the catch swallows it, and every
not-yet-finished buffer of the set is still stopped — both in interruption
handling (`onmessage`) and in stop() (`stopLive`). -/
theorem stop_error_swallowed (l : List PlaybackSource) :
    (∀ s ∈ l, s.finished = false → { s with stopped := true } ∈ stopAllCaught l) ∧
    (∀ s ∈ l, s.finished = true →
      stopNode s = .error .alreadyFinished ∧ s ∈ stopAllCaught l) ∧
    (∀ st : VoiceState, st.activeSources = l →
      (∀ s ∈ l, s.finished = false →
        { s with stopped := true } ∈ (stopLive st).stoppedSources) ∧
      (∀ msg : ServerMessage, msg.interrupted = true → ∀ now : ℚ,
        ∀ s ∈ l, s.finished = false →
          { s with stopped := true } ∈ (onmessage msg now st).stoppedSources)) := by
  refine ⟨fun s hs hf => stopAllCaught_mem l s hs hf, ?_, ?_⟩
  · intro s hs hf
    exact ⟨by simp [stopNode, hf], stopAllCaught_mem_finished l s hs hf⟩
  · intro st hst
    subst hst
    exact ⟨stopLive_stopped st,
      fun msg hmsg now => onmessage_interrupted_stopped msg now st hmsg⟩

/-- Witness for C9: a set holding one already-finished and one unfinished
buffer, stopped through interruption handling and through stop(). -/
theorem stop_error_swallowed_witness :
    ((∀ s ∈ [({ startTime := 0, duration := 1, finished := true, stopped := false } :
          PlaybackSource),
        { startTime := 2, duration := 1, finished := false, stopped := false }],
        s.finished = false →
        { s with stopped := true } ∈ stopAllCaught
          [{ startTime := 0, duration := 1, finished := true, stopped := false },
           { startTime := 2, duration := 1, finished := false, stopped := false }]) ∧
     (∀ s ∈ [({ startTime := 0, duration := 1, finished := true, stopped := false } :
          PlaybackSource),
        { startTime := 2, duration := 1, finished := false, stopped := false }],
        s.finished = true →
        stopNode s = .error .alreadyFinished ∧ s ∈ stopAllCaught
          [{ startTime := 0, duration := 1, finished := true, stopped := false },
           { startTime := 2, duration := 1, finished := false, stopped := false }]) ∧
     (∀ st : VoiceState, st.activeSources =
        [{ startTime := 0, duration := 1, finished := true, stopped := false },
         { startTime := 2, duration := 1, finished := false, stopped := false }] →
        (∀ s ∈ [({ startTime := 0, duration := 1, finished := true, stopped := false } :
            PlaybackSource),
          { startTime := 2, duration := 1, finished := false, stopped := false }],
          s.finished = false →
          { s with stopped := true } ∈ (stopLive st).stoppedSources) ∧
        (∀ msg : ServerMessage, msg.interrupted = true → ∀ now : ℚ,
          ∀ s ∈ [({ startTime := 0, duration := 1, finished := true, stopped := false } :
              PlaybackSource),
            { startTime := 2, duration := 1, finished := false, stopped := false }],
            s.finished = false →
            { s with stopped := true } ∈ (onmessage msg now st).stoppedSources))) :=
  stop_error_swallowed
    [{ startTime := 0, duration := 1, finished := true, stopped := false },
     { startTime := 2, duration := 1, finished := false, stopped := false }]

/-- C10: the encoder clamps every sample to [-1, 1] before scaling, so it is
total and clamp-invariant on arbitrary input — encoding any sequence equals
encoding its clamped image — and the per-sample 16-bit value always lies in
[-32768, 32767]. -/
theorem encoder_total_and_clamped (x : List ℚ) :
    encodeAudioChunk x = encodeAudioChunk (x.map clampSample) ∧
    ∀ a : ℚ, -32768 ≤ sampleToInt16 a ∧ sampleToInt16 a ≤ 32767 := by
  constructor
  · unfold encodeAudioChunk
    rw [List.map_map]
    congr 2
    apply List.map_congr_left
    intro a _
    show sampleToInt16 a = sampleToInt16 (clampSample a)
    unfold sampleToInt16
    rw [clampSample_idem]
  · intro a
    have := sampleToInt16_bounds a
    omega
